import Mathlib

/-!
Shallow embedding of the roguelike simulation engine (`src/main.rs`):
data model (tiles, rects, entities, fighters, message log), combat and
death transitions, movement and occupancy, dungeon generation, AI policy
and the turn controller, together with theorems checking the
specification's claims against these definitions.

Conventions of the embedding:
* Rust `i32` values are embedded as `Int` (no arithmetic here ever nears
  the `i32` overflow boundary: coordinates are bounded by the 80×43 map,
  hit points by the stat presets).
* In-place mutation becomes explicit state passing: a function that
  mutates an `Object` and the message log returns the updated pair.
* The few `f32` computations (`distance_to`, the normalise-and-round step
  of `move_towards`) are embedded by their exact integer characterisation;
  each such definition carries a comment justifying that the `f32`
  computation agrees with the exact one on the integer inputs that occur.
* External collaborators (libtcod rendering, keyboard capture, the
  field-of-view map) appear only through their interfaces: colors are an
  enumeration of the named constants used, the visibility oracle is a
  parameter `fov : Int → Int → Bool`, keys are a record of the fields the
  program matches on.
-/

/-- RGB colors are constants of the external `tcod::colors` library; the
engine only ever stores and compares them, so they are embedded as an
enumeration of the named constants the program uses. -/
inductive Color where
  | white
  | darkRed
  | orange
  | red
  | desaturatedGreen
  | darkerGreen
  | lightRed
  | darkerRed
  | black
deriving DecidableEq, Repr

/-- `PANEL_HEIGHT` from the source (`const PANEL_HEIGHT: i32 = 7`). -/
def PANEL_HEIGHT : Int := 7

/-- `MSG_HEIGHT = PANEL_HEIGHT as usize - 1`, the message-log capacity. -/
def MSG_HEIGHT : Nat := PANEL_HEIGHT.toNat - 1

/-- `MAP_WIDTH` from the source. -/
def MAP_WIDTH : Int := 80

/-- `MAP_HEIGHT` from the source. -/
def MAP_HEIGHT : Int := 43

/-- `ROOM_MAX_SIZE` from the source. -/
def ROOM_MAX_SIZE : Int := 10

/-- `ROOM_MIN_SIZE` from the source. -/
def ROOM_MIN_SIZE : Int := 6

/-- `MAX_ROOMS` from the source. -/
def MAX_ROOMS : Nat := 30

/-- `MAX_ROOM_MONSTERS` from the source. -/
def MAX_ROOM_MONSTERS : Int := 3

/-- `PLAYER_ID` from the source: the player's reserved store index. -/
def PLAYER_ID : Nat := 0

/-- `enum DeathCallback { Player, Monster }`. -/
inductive DeathCallback where
  | Player
  | Monster
deriving DecidableEq, Repr

/-- `struct Fighter { max_hp, hp, defence, power, on_death }`. -/
structure Fighter where
  max_hp : Int
  hp : Int
  defence : Int
  power : Int
  on_death : DeathCallback
deriving DecidableEq, Repr

/-- `struct Ai;` — a unit marker type. -/
inductive Ai where
  | mk
deriving DecidableEq, Repr

/-- `struct Object { x, y, char, name, color, traversable, alive, fighter, ai }`. -/
structure Object where
  x : Int
  y : Int
  char : Char
  name : String
  color : Color
  traversable : Bool
  alive : Bool
  fighter : Option Fighter
  ai : Option Ai
deriving DecidableEq, Repr

instance : Inhabited Object :=
  ⟨{ x := 0, y := 0, char := ' ', name := "", color := Color.black,
     traversable := false, alive := false, fighter := none, ai := none }⟩

/-- `type Messages = Vec<(String, Color)>`. -/
abbrev Messages := List (String × Color)

/-- `log_message`: if the buffer is full (`len == MSG_HEIGHT`), `remove(0)`
the oldest entry, then `push` the new one at the end. -/
def log_message (messages : Messages) (message : String) (color : Color) : Messages :=
  let messages := if messages.length = MSG_HEIGHT then messages.drop 1 else messages
  messages ++ [(message, color)]

/-- `player_death`: log "You died!", turn the player into a corpse
(`alive=false`, glyph `'%'`, dark red, `fighter=None`). -/
def player_death (player : Object) (messages : Messages) : Object × Messages :=
  let messages := log_message messages "You died!" Color.darkRed
  ({ player with alive := false, char := '%', color := Color.darkRed, fighter := none },
   messages)

/-- `monster_death`: log "{name} is dead!", transform into a traversable,
unattackable, immobile corpse named "remains of {name}". -/
def monster_death (monster : Object) (messages : Messages) : Object × Messages :=
  let messages := log_message messages (monster.name ++ " is dead!") Color.orange
  ({ monster with
      char := '%',
      color := Color.darkRed,
      traversable := true,
      fighter := none,
      ai := none,
      name := "remains of " ++ monster.name },
   messages)

/-- `DeathCallback::callback`: dispatch to `player_death` / `monster_death`. -/
def DeathCallback.callback : DeathCallback → Object → Messages → Object × Messages
  | DeathCallback.Player => player_death
  | DeathCallback.Monster => monster_death

/-- `Object::take_damage`: if there is a fighter, subtract positive damage
from `hp`; if `hp ≤ 0` afterwards, set `alive=false` and run the bound
death callback. Without a fighter this is a no-op. -/
def Object.take_damage (self : Object) (damage : Int) (messages : Messages) :
    Object × Messages :=
  match self.fighter with
  | none => (self, messages)
  | some fighter =>
    let fighter := if damage > 0 then { fighter with hp := fighter.hp - damage } else fighter
    let self := { self with fighter := some fighter }
    if fighter.hp ≤ 0 then
      fighter.on_death.callback { self with alive := false } messages
    else
      (self, messages)

/-- `Object::attack`: damage is attacker power (0 without a fighter) minus
defender defence (0 without a fighter); on positive damage log the hit and
apply it via `take_damage`, otherwise only log the no-effect line (the
source does not call `take_damage` in the else branch). The attacker is
not mutated, so the result is the updated `(target, messages)`. -/
def Object.attack (self : Object) (target : Object) (messages : Messages) :
    Object × Messages :=
  let damage := (self.fighter.map Fighter.power).getD 0 -
    (target.fighter.map Fighter.defence).getD 0
  if damage > 0 then
    let messages := log_message messages
      (self.name ++ " attacks " ++ target.name ++ " for " ++ toString damage ++
        " hit points!") Color.white
    target.take_damage damage messages
  else
    let messages := log_message messages
      (self.name ++ " attacks " ++ target.name ++ " but it has no effect!") Color.white
    (target, messages)

/-- Variant of `Object.attack` that follows the specification's wording
for the no-effect branch: "the defender's takeDamage is still called
with 0". Used only to compare the source's behaviour with that wording. -/
def Object.attack_specC2 (self : Object) (target : Object) (messages : Messages) :
    Object × Messages :=
  let damage := (self.fighter.map Fighter.power).getD 0 -
    (target.fighter.map Fighter.defence).getD 0
  if damage > 0 then
    let messages := log_message messages
      (self.name ++ " attacks " ++ target.name ++ " for " ++ toString damage ++
        " hit points!") Color.white
    target.take_damage damage messages
  else
    let messages := log_message messages
      (self.name ++ " attacks " ++ target.name ++ " but it has no effect!") Color.white
    target.take_damage 0 messages

/-- `struct Tile { explored, traversable, transparent }`. -/
structure Tile where
  explored : Bool
  traversable : Bool
  transparent : Bool
deriving DecidableEq, Repr

/-- `Tile::empty()`. -/
def Tile.empty : Tile := { explored := false, traversable := true, transparent := true }

/-- `Tile.wall()`. -/
def Tile.wall : Tile := { explored := false, traversable := false, transparent := false }

/-- `type Map = Vec<Vec<Tile>>`, indexed `map[x][y]`. The fixed-size
2D array is embedded as a total function on coordinates; all accesses in
the program are in bounds (`0 ≤ x < MAP_WIDTH`, `0 ≤ y < MAP_HEIGHT`). -/
abbrev Map := Int → Int → Tile

/-- Point update `map[x][y] = t` on the functional map embedding. -/
def mapSet (m : Map) (x y : Int) (t : Tile) : Map :=
  fun a b => if a = x ∧ b = y then t else m a b

/-- The integer range `lo..hi` of a Rust `for` loop, as a list. -/
def intRange (lo hi : Int) : List Int :=
  (List.range (hi - lo).toNat).map (fun i : Nat => lo + (i : Int))

/-- `struct Rect { x1, y1, x2, y2 }`. -/
structure Rect where
  x1 : Int
  y1 : Int
  x2 : Int
  y2 : Int
deriving DecidableEq, Repr

/-- `Rect::new(x, y, w, h)`. -/
def Rect.new (x y w h : Int) : Rect := { x1 := x, y1 := y, x2 := x + w, y2 := y + h }

/-- `Rect::center()` (integer midpoint; all generated coordinates are
nonnegative, where Rust's and Lean's integer divisions agree). -/
def Rect.center (s : Rect) : Int × Int := ((s.x1 + s.x2) / 2, (s.y1 + s.y2) / 2)

/-- `Rect::intersects_with`: inclusive AABB intersection test. -/
def Rect.intersects_with (s other : Rect) : Bool :=
  let x_intersects := decide (s.x2 ≥ other.x1 ∧ s.x1 ≤ other.x2)
  let y_intersects := decide (s.y2 ≥ other.y1 ∧ s.y1 ≤ other.y2)
  x_intersects && y_intersects

/-- `create_room`: carve the rectangle's interior
(`x1+1..x2` × `y1+1..y2`) to empty tiles. -/
def create_room (rect : Rect) (map : Map) : Map :=
  (intRange (rect.x1 + 1) rect.x2).foldl (fun m x =>
    (intRange (rect.y1 + 1) rect.y2).foldl (fun m y => mapSet m x y Tile.empty) m) map

/-- `create_h_tunnel`. -/
def create_h_tunnel (x1 x2 y : Int) (map : Map) : Map :=
  (intRange (min x1 x2) (max x1 x2 + 1)).foldl (fun m x => mapSet m x y Tile.empty) map

/-- `create_v_tunnel`. -/
def create_v_tunnel (y1 y2 x : Int) (map : Map) : Map :=
  (intRange (min y1 y2) (max y1 y2 + 1)).foldl (fun m y => mapSet m x y Tile.empty) map

/-- `Object::new`. -/
def Object.new (x y : Int) (char : Char) (name : String) (color : Color)
    (traversable : Bool) : Object :=
  { x := x, y := y, char := char, name := name, color := color,
    traversable := traversable, alive := false, fighter := none, ai := none }

/-- `Object::pos()`. -/
def Object.pos (self : Object) : Int × Int := (self.x, self.y)

/-- `Object::set_pos`. -/
def Object.set_pos (self : Object) (x y : Int) : Object := { self with x := x, y := y }

/-- The squared Euclidean distance between two objects.
`Object::distance_to` computes `sqrt(dx² + dy²)` in `f32`; every use in
the program compares it with a small integer constant (`>= 2.0`,
`< 5_f32`), and for integer `n = dx² + dy²` in the map's range the
correctly rounded `f32` square root satisfies `sqrt(n) ≥ k ↔ n ≥ k²` and
`sqrt(n) < k ↔ n < k²` exactly, so those comparisons are embedded on the
squared distance. -/
def Object.distance_sq (self other : Object) : Int :=
  (self.x - other.x) ^ 2 + (self.y - other.y) ^ 2

/-- `is_traversable`: blocked by a non-traversable tile or by any
non-traversable object at exactly that position. -/
def is_traversable (x y : Int) (map : Map) (objects : List Object) : Bool :=
  if !(map x y).traversable then
    false
  else
    !(objects.any (fun o => !o.traversable && o.pos == (x, y)))

/-- `move_by`: move object `id` by `(dx, dy)` if the target cell is
traversable, otherwise do nothing (the function has no access to the
message log, so a blocked move leaves no log entry). Store indices used
by the program are always in bounds, so the lookup uses a default. -/
def move_by (id : Nat) (dx dy : Int) (map : Map) (objects : List Object) : List Object :=
  let o := objects.getD id default
  let (x, y) := o.pos
  if is_traversable (x + dx) (y + dy) map objects then
    objects.set id (o.set_pos (x + dx) (y + dy))
  else
    objects

/-- `move_by_or_attack`: find the first object with a fighter at the
target cell; attack it as the player if found (the source borrows player
and target via `mut_two PLAYER_ID target_id`; in every call the deltas
are nonzero so the target cell differs from the player's cell and the
two indices differ), else fall back to `move_by`. -/
def move_by_or_attack (id : Nat) (dx dy : Int) (map : Map) (objects : List Object)
    (messages : Messages) : List Object × Messages :=
  let x := (objects.getD id default).x + dx
  let y := (objects.getD id default).y + dy
  let target_id := objects.findIdx? (fun o => o.fighter.isSome && o.pos == (x, y))
  match target_id with
  | some target_id =>
    let player := objects.getD PLAYER_ID default
    let target := objects.getD target_id default
    let (target, messages) := player.attack target messages
    (objects.set target_id target, messages)
  | none => (move_by id dx dy map objects, messages)

/-- The rounded component of the normalised displacement vector in
`move_towards`: `(d as f32 / dist).round() as i32`, with
`dist = sqrt(n)` and `n = dx² + dy²`, so `d² ≤ n`.
Exact characterisation of the `f32` computation for the integer inputs
that occur (|d| bounded by the 80×43 map, so `n ≤ 2·128²`):
* `n = 0` gives `0/0 = NaN`, and Rust's saturating `as i32` cast maps
  `NaN` to `0`;
* otherwise the quotient lies in `[-1, 1]` and `round` (half away from
  zero) yields `sign d` exactly when `|d|/√n ≥ 1/2`, i.e. `4·d² ≥ n`,
  and `0` otherwise.  An exact tie `4·d² = n` would force `3·d² = e²`
  (`e` the other component), impossible for `d ≠ 0`; and for the bounded
  integer inputs the quotient is at least `6×10⁻⁶` away from `±1/2`
  while the two `f32` roundings (sqrt, division) err by at most
  `≈1.2×10⁻⁷`, so the `f32` comparison agrees with the exact one. -/
def round_normalized (d n : Int) : Int :=
  if n = 0 then 0
  else if n ≤ 4 * d * d then d.sign
  else 0

/-- `move_towards`: step one cell toward the target by normalising the
displacement vector and rounding each component. -/
def move_towards (id : Nat) (target_x target_y : Int) (map : Map)
    (objects : List Object) : List Object :=
  let o := objects.getD id default
  let dx := target_x - o.x
  let dy := target_y - o.y
  let n := dx * dx + dy * dy
  move_by id (round_normalized dx n) (round_normalized dy n) map objects

/-- `ai_take_turn`: if the monster's tile is in the field of view, close
in on the player while the distance is at least 2.0 and attack once
closer. `distance_to(...) >= 2.0` is embedded as `4 ≤ distance_sq` (see
`Object.distance_sq`). The source borrows monster and player via
`mut_two monster_id PLAYER_ID`; the loop only passes monster indices, so
the two indices differ and the pair is exactly those two elements. -/
def ai_take_turn (monster_id : Nat) (map : Map) (objects : List Object)
    (messages : Messages) (fov : Int → Int → Bool) : List Object × Messages :=
  let m := objects.getD monster_id default
  if fov m.x m.y then
    let p := objects.getD PLAYER_ID default
    if 4 ≤ m.distance_sq p then
      (move_towards monster_id p.x p.y map objects, messages)
    else
      let (p, messages) := m.attack p messages
      (objects.set PLAYER_ID p, messages)
  else
    (objects, messages)

/-- `mut_two`: mutably borrow two different elements of a slice, in the
order `(items[i], items[j])`. The Rust function returns two disjoint
mutable references obtained through `split_at_mut(max i j)`; panics
(`assert`, slice indexing) are embedded as `Except.error`. -/
def mut_two {T : Type} (items : List T) (i j : Nat) : Except String (T × T) :=
  if i = j then
    Except.error "The two indices should be different"
  else
    let k := max i j
    if items.length < k then
      Except.error "index out of bounds"
    else
      let left := items.take k
      let right := items.drop k
      if i < j then
        match left[i]?, right[0]? with
        | some a, some b => Except.ok (a, b)
        | _, _ => Except.error "index out of bounds"
      else
        match right[0]?, left[j]? with
        | some a, some b => Except.ok (a, b)
        | _, _ => Except.error "index out of bounds"

/-- The monster presets of `place_objects`: an orc (80% branch). -/
def orc_at (x y : Int) : Object :=
  let o := Object.new x y 'o' "orc" Color.desaturatedGreen false
  { o with
      fighter := some { max_hp := 10, hp := 10, defence := 0, power := 3,
                        on_death := DeathCallback.Monster },
      ai := some Ai.mk,
      alive := true }

/-- The monster presets of `place_objects`: a troll (20% branch). -/
def troll_at (x y : Int) : Object :=
  let o := Object.new x y 'T' "troll" Color.darkerGreen false
  { o with
      fighter := some { max_hp := 16, hp := 16, defence := 1, power := 4,
                        on_death := DeathCallback.Monster },
      ai := some Ai.mk,
      alive := true }

/-- One sampled monster of `place_objects`: a position drawn from the
room's interior and the 80/20 coin (`rand::random::<f32>() < 0.8`). -/
structure MonsterCand where
  x : Int
  y : Int
  isOrc : Bool
deriving DecidableEq, Repr

/-- `place_objects`: for each sampled monster, spawn it only if its tile
is traversable and unoccupied; the sampled count and draws are supplied
as the RNG outcome `cands`. -/
def place_objects (cands : List MonsterCand) (map : Map) (objects : List Object) :
    List Object :=
  cands.foldl (fun objs c =>
    if is_traversable c.x c.y map objs then
      objs ++ [if c.isOrc then orc_at c.x c.y else troll_at c.x c.y]
    else
      objs) objects

/-- The RNG outcome consumed by one iteration of `make_map`'s room loop:
the sampled width, height and position, the tunnel-direction coin
(`rand::random()`), and the monster draws of `place_objects`. -/
structure RoomCand where
  w : Int
  h : Int
  x : Int
  y : Int
  coin : Bool
  monsters : List MonsterCand
deriving DecidableEq, Repr

/-- The ranges `gen_range` guarantees for a sampled room candidate:
`w, h ∈ [ROOM_MIN_SIZE, ROOM_MAX_SIZE + 1)`, `x ∈ [0, MAP_WIDTH - w)`,
`y ∈ [0, MAP_HEIGHT - h)`. -/
def RoomCand.valid (c : RoomCand) : Prop :=
  ROOM_MIN_SIZE ≤ c.w ∧ c.w < ROOM_MAX_SIZE + 1 ∧
  ROOM_MIN_SIZE ≤ c.h ∧ c.h < ROOM_MAX_SIZE + 1 ∧
  0 ≤ c.x ∧ c.x < MAP_WIDTH - c.w ∧
  0 ≤ c.y ∧ c.y < MAP_HEIGHT - c.h

instance (c : RoomCand) : Decidable c.valid := by
  unfold RoomCand.valid; infer_instance

/-- The generator's loop state: the map being carved, the starting
position, the accepted rooms and the spawned monsters. -/
structure GenState where
  map : Map
  starting_position : Int × Int
  rooms : List Rect
  objects : List Object

/-- One iteration of `make_map`'s room loop: reject the candidate if it
intersects an accepted room; otherwise carve it, set the starting
position (first room) or place monsters and carve an L-shaped tunnel
from the previous room's center (later rooms), and append it to the
accepted list. -/
def make_map_step (st : GenState) (c : RoomCand) : GenState :=
  let new_room := Rect.new c.x c.y c.w c.h
  let invalid := st.rooms.any (fun other_room => new_room.intersects_with other_room)
  if invalid then
    st
  else
    let map := create_room new_room st.map
    let (new_x, new_y) := new_room.center
    if st.rooms.isEmpty then
      { st with map := map, starting_position := (new_x, new_y),
                rooms := st.rooms ++ [new_room] }
    else
      let objects := place_objects c.monsters map st.objects
      let (prev_x, prev_y) := (st.rooms.getLastD (Rect.new 0 0 0 0)).center
      let map :=
        if c.coin then
          create_v_tunnel prev_y new_y new_x (create_h_tunnel prev_x new_x prev_y map)
        else
          create_h_tunnel prev_x new_x new_y (create_v_tunnel prev_y new_y prev_x map)
      { map := map, starting_position := st.starting_position,
        rooms := st.rooms ++ [new_room], objects := objects }

/-- `make_map`: start from an all-wall map and run the room loop once per
candidate (the source draws `MAX_ROOMS` candidates). Besides the source's
return value `(map, starting_position)` the embedding also exposes the
accepted rooms and the spawned monsters for specification purposes. -/
def make_map (cands : List RoomCand) : GenState :=
  cands.foldl make_map_step
    { map := fun _ _ => Tile.wall, starting_position := (0, 0), rooms := [], objects := [] }

/-- `enum PlayerAction`. -/
inductive PlayerAction where
  | TookTurn
  | DidntTakeTurn
  | Exit
deriving DecidableEq, Repr

/-- The fields of `tcod::input::Key` the program matches on. -/
inductive KeyCode where
  | Enter
  | Escape
  | OtherCode
deriving DecidableEq, Repr

/-- A key press: printable character, key code, alt modifier. -/
structure Key where
  printable : Char
  code : KeyCode
  alt : Bool
deriving DecidableEq, Repr

/-- `handle_keys`: the match on `(key, player_alive)`, arm by arm in
source order. Movement keys resolve through `do_move_by`, which calls
`move_by_or_attack` and always returns `TookTurn`; alt-enter toggles
fullscreen on the external console (a side effect outside the engine)
and returns `DidntTakeTurn`; escape returns `Exit`; anything else
returns `DidntTakeTurn`. -/
def handle_keys (key : Key) (map : Map) (objects : List Object) (messages : Messages) :
    PlayerAction × List Object × Messages :=
  let player_alive := (objects.getD PLAYER_ID default).alive
  let do_move_by := fun (dx dy : Int) =>
    let (objects, messages) := move_by_or_attack PLAYER_ID dx dy map objects messages
    (PlayerAction.TookTurn, objects, messages)
  if player_alive && key.printable == 'k' then do_move_by 0 (-1)
  else if player_alive && key.printable == 'j' then do_move_by 0 1
  else if player_alive && key.printable == 'h' then do_move_by (-1) 0
  else if player_alive && key.printable == 'l' then do_move_by 1 0
  else if player_alive && key.printable == 'y' then do_move_by (-1) (-1)
  else if player_alive && key.printable == 'u' then do_move_by 1 (-1)
  else if player_alive && key.printable == 'b' then do_move_by (-1) 1
  else if player_alive && key.printable == 'n' then do_move_by 1 1
  else if key.code == KeyCode.Enter && key.alt then (PlayerAction.DidntTakeTurn, objects, messages)
  else if key.code == KeyCode.Escape then (PlayerAction.Exit, objects, messages)
  else (PlayerAction.DidntTakeTurn, objects, messages)

/-- The growl block of the main loop: for every object other than the
player within distance 5 of the player that has a fighter, log a growl.
`distance_to(player) < 5_f32` is embedded as `distance_sq < 25` (see
`Object.distance_sq`). -/
def growl_block (objects : List Object) (messages : Messages) : Messages :=
  let player := objects.getD PLAYER_ID default
  objects.foldl (fun msgs o =>
    if o.name ≠ player.name && o.distance_sq player < 25 && o.fighter.isSome then
      log_message msgs ("The " ++ o.name ++ " growls!") Color.darkRed
    else
      msgs) messages

/-- The AI loop of the main loop: `for id in 0..objects.len()`, invoking
`ai_take_turn` for each index whose (current) object has an AI marker. -/
def run_ai_turns (map : Map) (objects : List Object) (messages : Messages)
    (fov : Int → Int → Bool) : List Object × Messages :=
  (List.range objects.length).foldl
    (fun (st : List Object × Messages) id =>
      if (st.1.getD id default).ai.isSome then
        ai_take_turn id map st.1 st.2 fov
      else
        st)
    (objects, messages)

/-- The outcome of one iteration of the session loop: either the loop
breaks (`exit`) or it continues with the updated entities and log. -/
inductive TickResult where
  | exit
  | next (objects : List Object) (messages : Messages)
deriving DecidableEq, Repr

/-- One iteration of the session loop after rendering (`main`'s `while`
body from `handle_keys` on): handle the key; break on `Exit`; run the
growl block when the player is alive and the action was not
`DidntTakeTurn`; then run the AI loop (unconditionally). -/
def game_tick (key : Key) (map : Map) (objects : List Object) (messages : Messages)
    (fov : Int → Int → Bool) : TickResult :=
  let (player_action, objects, messages) := handle_keys key map objects messages
  if player_action = PlayerAction.Exit then
    TickResult.exit
  else
    let messages :=
      if (objects.getD PLAYER_ID default).alive &&
          player_action ≠ PlayerAction.DidntTakeTurn then
        growl_block objects messages
      else
        messages
    let (objects, messages) := run_ai_turns map objects messages fov
    TickResult.next objects messages

/-- The tick as the specification's claim C1 describes it: identical to
`game_tick` except that the AI loop runs only when the player action is
`TookTurn`. Used only to compare the source's behaviour with that
wording. -/
def game_tick_claimC1 (key : Key) (map : Map) (objects : List Object)
    (messages : Messages) (fov : Int → Int → Bool) : TickResult :=
  let (player_action, objects, messages) := handle_keys key map objects messages
  if player_action = PlayerAction.Exit then
    TickResult.exit
  else
    let messages :=
      if (objects.getD PLAYER_ID default).alive &&
          player_action ≠ PlayerAction.DidntTakeTurn then
        growl_block objects messages
      else
        messages
    if player_action = PlayerAction.TookTurn then
      let (objects, messages) := run_ai_turns map objects messages fov
      TickResult.next objects messages
    else
      TickResult.next objects messages

/-! ## Helper lemmas -/

/-- Appending a batch of messages one by one through `log_message`. -/
def append_messages (messages : Messages) (l : List (String × Color)) : Messages :=
  l.foldl (fun ms p => log_message ms p.1 p.2) messages

lemma MSG_HEIGHT_eq : MSG_HEIGHT = 6 := rfl

lemma append_messages_eq (l : List (String × Color)) :
    ∀ msgs : Messages, msgs.length ≤ MSG_HEIGHT →
      append_messages msgs l = (msgs ++ l).drop (msgs.length + l.length - MSG_HEIGHT) := by
  have hM : MSG_HEIGHT = 6 := MSG_HEIGHT_eq
  induction l with
  | nil =>
    intro msgs h
    simp only [append_messages, List.foldl_nil, List.append_nil, List.length_nil,
      Nat.add_zero, Nat.sub_eq_zero_of_le h, List.drop_zero]
  | cons p l ih =>
    intro msgs h
    have hstep : append_messages msgs (p :: l) =
        append_messages (log_message msgs p.1 p.2) l := rfl
    rw [hstep]
    by_cases h6 : msgs.length = MSG_HEIGHT
    · have hmsg : log_message msgs p.1 p.2 = msgs.drop 1 ++ [p] := by
        simp [log_message, h6]
      have hlen : (msgs.drop 1 ++ [p]).length = MSG_HEIGHT := by
        simp only [List.length_append, List.length_drop, List.length_singleton]
        omega
      rw [hmsg, ih _ (le_of_eq hlen), hlen]
      have h1 : msgs.length + (p :: l).length - MSG_HEIGHT = l.length + 1 := by
        simp only [List.length_cons]; omega
      have h2 : MSG_HEIGHT + l.length - MSG_HEIGHT = l.length := by omega
      rw [h1, h2]
      have h5 : (msgs ++ p :: l).drop 1 = msgs.drop 1 ++ p :: l :=
        List.drop_append_of_le_length (by omega)
      have h3 : (msgs ++ p :: l).drop (l.length + 1) =
          (msgs.drop 1 ++ p :: l).drop l.length := by
        rw [← h5, List.drop_drop, Nat.add_comm]
      rw [h3, List.append_assoc]
      rfl
    · have hmsg : log_message msgs p.1 p.2 = msgs ++ [p] := by
        simp [log_message, h6]
      have hlen : (msgs ++ [p]).length ≤ MSG_HEIGHT := by
        simp only [List.length_append, List.length_singleton]
        omega
      rw [hmsg, ih _ hlen]
      have h1 : (msgs ++ [p]).length + l.length - MSG_HEIGHT =
          msgs.length + (p :: l).length - MSG_HEIGHT := by
        simp
        omega
      rw [h1, List.append_assoc]
      rfl

lemma getD_eq_getElem {T : Type} [Inhabited T] (l : List T) (n : Nat) (h : n < l.length) :
    l.getD n default = l[n] := by
  simp [List.getD_eq_getElem?_getD, List.getElem?_eq_getElem h]

/-! ## Claims -/

/-- **C7**: the message log length never exceeds its capacity
`MSG_HEIGHT = 6`; an insertion into a full log first evicts the oldest
entry (FIFO) before appending; and appending `N > capacity` messages to
an empty log leaves exactly the last `capacity` messages, oldest-first. -/
theorem claim_C7_message_log (msgs : Messages) (m : String) (c : Color)
    (l : List (String × Color)) :
    (msgs.length ≤ MSG_HEIGHT → (log_message msgs m c).length ≤ MSG_HEIGHT) ∧
    (msgs.length = MSG_HEIGHT → log_message msgs m c = msgs.drop 1 ++ [(m, c)]) ∧
    (MSG_HEIGHT < l.length →
      append_messages [] l = l.drop (l.length - MSG_HEIGHT)) := by
  have hM : MSG_HEIGHT = 6 := MSG_HEIGHT_eq
  refine ⟨?_, ?_, ?_⟩
  · intro h
    by_cases h6 : msgs.length = MSG_HEIGHT <;> simp [log_message, h6] <;> omega
  · intro h6
    simp [log_message, h6]
  · intro hN
    rw [append_messages_eq l [] (by simp)]
    simp

/-- Concrete witness for C7: eight messages into an empty log leave the
last six. -/
def c7_batch : List (String × Color) :=
  [("m1", Color.white), ("m2", Color.white), ("m3", Color.white), ("m4", Color.white),
   ("m5", Color.white), ("m6", Color.white), ("m7", Color.white), ("m8", Color.white)]

theorem claim_C7_witness :
    append_messages [] c7_batch = c7_batch.drop (c7_batch.length - MSG_HEIGHT) :=
  (claim_C7_message_log [] "" Color.white c7_batch).2.2 (by decide)

/-- **C3**: `take_damage` is a no-op without a fighter; with a fighter the
amount is subtracted from `hp` only when positive; if the resulting
`hp ≤ 0` the entity is marked not alive and the bound death transition
runs, after which `fighter` is `None`, so any further `take_damage` call
leaves the entity unchanged (death happens at most once). -/
theorem claim_C3_take_damage (o : Object) (amount : Int) (msgs : Messages) :
    (o.fighter = none → o.take_damage amount msgs = (o, msgs)) ∧
    (∀ f : Fighter, o.fighter = some f →
      (0 < (if 0 < amount then f.hp - amount else f.hp) →
        o.take_damage amount msgs =
          ({ o with
              fighter := some { f with hp := if 0 < amount then f.hp - amount else f.hp } },
           msgs)) ∧
      ((if 0 < amount then f.hp - amount else f.hp) ≤ 0 →
        (o.take_damage amount msgs).1.alive = false ∧
        (o.take_damage amount msgs).1.fighter = none ∧
        (∀ (amount2 : Int) (msgs2 : Messages),
          (o.take_damage amount msgs).1.take_damage amount2 msgs2 =
            ((o.take_damage amount msgs).1, msgs2)))) := by
  constructor
  · intro h
    simp [Object.take_damage, h]
  · intro f hf
    constructor
    · intro hpos
      by_cases hdmg : 0 < amount
      · simp only [hdmg, if_true] at hpos
        simp [Object.take_damage, hf, gt_iff_lt, hdmg, not_le.mpr hpos]
      · simp only [hdmg, if_false] at hpos
        simp [Object.take_damage, hf, gt_iff_lt, hdmg, not_le.mpr hpos]
    · intro hdead
      have hres : (o.take_damage amount msgs).1.alive = false ∧
          (o.take_damage amount msgs).1.fighter = none := by
        by_cases hdmg : 0 < amount
        · simp only [hdmg, if_true] at hdead
          cases hcb : f.on_death <;>
            simp [Object.take_damage, hf, gt_iff_lt, hdmg, hdead, hcb,
              DeathCallback.callback, player_death, monster_death]
        · simp only [hdmg, if_false] at hdead
          cases hcb : f.on_death <;>
            simp [Object.take_damage, hf, gt_iff_lt, hdmg, hdead, hcb,
              DeathCallback.callback, player_death, monster_death]
      refine ⟨hres.1, hres.2, ?_⟩
      intro amount2 msgs2
      have hfn := hres.2
      revert hfn
      generalize (o.take_damage amount msgs).1 = o2
      intro hfn
      simp [Object.take_damage, hfn]

/-- Concrete witness for C3: one point of damage kills an orc at 1 hp,
after which a second hit is a no-op. -/
def c3_orc : Object :=
  { orc_at 4 4 with fighter := some { max_hp := 10, hp := 1, defence := 0, power := 3,
                                      on_death := DeathCallback.Monster } }

theorem claim_C3_witness :
    (c3_orc.take_damage 1 []).1.alive = false ∧
    (c3_orc.take_damage 1 []).1.fighter = none ∧
    ((c3_orc.take_damage 1 []).1.take_damage 1 [] = ((c3_orc.take_damage 1 []).1, [])) := by
  have h := ((claim_C3_take_damage c3_orc 1 []).2
    { max_hp := 10, hp := 1, defence := 0, power := 3, on_death := DeathCallback.Monster }
    rfl).2 (by decide)
  exact ⟨h.1, h.2.1, h.2.2 1 []⟩

/-- **C4**: a monster with a fighter at 1 hp hit for 1 damage dies: it
becomes not alive, traversable (a walkable corpse), loses its AI marker
and fighter, takes the corpse glyph and color, gets "remains of "
prefixed to its name, and exactly one log line "{name} is dead!" is
appended. -/
theorem claim_C4_death_transition (o : Object) (f : Fighter) (msgs : Messages)
    (hf : o.fighter = some f) (hhp : f.hp = 1) (hcb : f.on_death = DeathCallback.Monster)
    (hlen : msgs.length < MSG_HEIGHT) :
    o.take_damage 1 msgs =
      ({ o with
          alive := false, traversable := true, ai := none, fighter := none,
          char := '%', color := Color.darkRed, name := "remains of " ++ o.name },
       msgs ++ [(o.name ++ " is dead!", Color.orange)]) := by
  simp [Object.take_damage, hf, hhp, hcb, DeathCallback.callback, monster_death,
    log_message, Nat.ne_of_lt hlen]

/-- Concrete witness for C4. -/
def c4_orc : Object :=
  { orc_at 5 5 with fighter := some { max_hp := 10, hp := 1, defence := 0, power := 3,
                                      on_death := DeathCallback.Monster } }

theorem claim_C4_witness :
    c4_orc.take_damage 1 [] =
      ({ c4_orc with
          alive := false, traversable := true, ai := none, fighter := none,
          char := '%', color := Color.darkRed, name := "remains of " ++ c4_orc.name },
       [(c4_orc.name ++ " is dead!", Color.orange)]) :=
  claim_C4_death_transition c4_orc
    { max_hp := 10, hp := 1, defence := 0, power := 3, on_death := DeathCallback.Monster }
    [] rfl rfl rfl (by decide)

/-- **C9**: `mut_two` on two distinct in-bounds indices returns exactly
the elements at `i` and at `j`, in that order; on equal indices it fails
fast with the assertion error instead of returning aliased views. -/
theorem claim_C9_mut_two {T : Type} [Inhabited T] (items : List T) (i j : Nat)
    (hi : i < items.length) (hj : j < items.length) :
    (i ≠ j → mut_two items i j =
      Except.ok (items.getD i default, items.getD j default)) ∧
    (i = j → mut_two items i j = Except.error "The two indices should be different") := by
  constructor
  · intro hne
    have hk : ¬ items.length < max i j := by omega
    rcases Nat.lt_or_ge i j with hij | hij
    · have hmax : max i j = j := by omega
      have h1 : (items.take j)[i]? = items[i]? := List.getElem?_take_of_lt hij
      have h2 : (items.drop j)[0]? = items[j]? := by
        rw [List.getElem?_drop]; simp
      simp only [mut_two, if_neg hne, hmax, if_neg (show ¬ items.length < j by omega),
        if_pos hij, h1, h2, List.getElem?_eq_getElem hi, List.getElem?_eq_getElem hj]
      rw [getD_eq_getElem items i hi, getD_eq_getElem items j hj]
    · have hji : j < i := by omega
      have hmax : max i j = i := by omega
      have hnlt : ¬ i < j := by omega
      have h1 : (items.take i)[j]? = items[j]? := List.getElem?_take_of_lt hji
      have h2 : (items.drop i)[0]? = items[i]? := by
        rw [List.getElem?_drop]; simp
      simp only [mut_two, if_neg hne, hmax, if_neg (show ¬ items.length < i by omega),
        if_neg hnlt, h1, h2, List.getElem?_eq_getElem hi, List.getElem?_eq_getElem hj]
      rw [getD_eq_getElem items i hi, getD_eq_getElem items j hj]
  · intro he
    simp [mut_two, he]

/-- Concrete witness for C9. -/
theorem claim_C9_witness :
    mut_two [10, 20, 30] 2 0 = Except.ok (30, 10) := by
  have h := (claim_C9_mut_two [10, 20, 30] 2 0 (by decide) (by decide)).1 (by decide)
  simpa using h

/-- C2 counterexample input: an attacker with no fighter (0 power). -/
def c2_attacker : Object := Object.new 0 0 'a' "bat" Color.white false

/-- C2 counterexample input: a defender whose fighter is at 0 hp (such a
state is constructible for `attack` even though normal play removes the
fighter on death). -/
def c2_defender : Object :=
  { Object.new 0 1 'd' "dummy" Color.white false with
      fighter := some { max_hp := 10, hp := 0, defence := 2, power := 0,
                        on_death := DeathCallback.Monster } }

/-- **C2, counterexample**: in the no-effect branch the source does not
call `take_damage` at all: on a defender with a 0-hp fighter the source's
`attack` leaves the defender unchanged, while the claim's "takeDamage is
still called with 0" (`attack_specC2`) would run the death transition —
so the claim's description of the else branch is false of the code. -/
theorem claim_C2_counterexample :
    Object.attack c2_attacker c2_defender [] ≠
      Object.attack_specC2 c2_attacker c2_defender [] ∧
    (Object.attack c2_attacker c2_defender []).1 = c2_defender ∧
    (Object.attack_specC2 c2_attacker c2_defender []).1.fighter = none := by
  refine ⟨by decide, by decide, by decide⟩

lemma take_damage_spec_pos (o : Object) (f : Fighter) (dmg : Int) (msgs : Messages)
    (hf : o.fighter = some f) (hdmg : 0 < dmg) (hsurv : 0 < f.hp - dmg) :
    o.take_damage dmg msgs =
      ({ o with fighter := some { f with hp := f.hp - dmg } }, msgs) := by
  have hns : ¬ (f.hp - dmg ≤ 0) := not_le.mpr hsurv
  simp [Object.take_damage, hf, hdmg, hns]

/-- **C2, amended**: damage is attacker power (0 without a fighter) minus
defender defence (0 without a fighter); if damage > 0 the log line
"{attacker} attacks {defender} for {damage} hit points!" is appended and
the damage is applied via `take_damage` (so a surviving defender's hp
drops by exactly the damage); otherwise the log line "{attacker} attacks
{defender} but it has no effect!" is appended and the defender is left
entirely unchanged (`take_damage` is not called in this branch). -/
theorem claim_C2_attack (a d : Object) (msgs : Messages) :
    (0 < (a.fighter.map Fighter.power).getD 0 - (d.fighter.map Fighter.defence).getD 0 →
      a.attack d msgs =
        d.take_damage
          ((a.fighter.map Fighter.power).getD 0 - (d.fighter.map Fighter.defence).getD 0)
          (log_message msgs
            (a.name ++ " attacks " ++ d.name ++ " for " ++
              toString ((a.fighter.map Fighter.power).getD 0 -
                (d.fighter.map Fighter.defence).getD 0) ++ " hit points!") Color.white)) ∧
    (∀ f : Fighter, d.fighter = some f →
      0 < (a.fighter.map Fighter.power).getD 0 - f.defence →
      0 < f.hp - ((a.fighter.map Fighter.power).getD 0 - f.defence) →
      a.attack d msgs =
        ({ d with
            fighter := some
              { f with hp := f.hp - ((a.fighter.map Fighter.power).getD 0 - f.defence) } },
         log_message msgs
           (a.name ++ " attacks " ++ d.name ++ " for " ++
             toString ((a.fighter.map Fighter.power).getD 0 - f.defence) ++
             " hit points!") Color.white)) ∧
    ((a.fighter.map Fighter.power).getD 0 - (d.fighter.map Fighter.defence).getD 0 ≤ 0 →
      a.attack d msgs =
        (d, log_message msgs
          (a.name ++ " attacks " ++ d.name ++ " but it has no effect!") Color.white)) := by
  have hpos : 0 < (a.fighter.map Fighter.power).getD 0 -
      (d.fighter.map Fighter.defence).getD 0 →
      a.attack d msgs =
        d.take_damage
          ((a.fighter.map Fighter.power).getD 0 - (d.fighter.map Fighter.defence).getD 0)
          (log_message msgs
            (a.name ++ " attacks " ++ d.name ++ " for " ++
              toString ((a.fighter.map Fighter.power).getD 0 -
                (d.fighter.map Fighter.defence).getD 0) ++ " hit points!") Color.white) := by
    intro h
    simp only [Object.attack]
    rw [if_pos h]
  refine ⟨hpos, ?_, ?_⟩
  · intro f hf h1 h2
    have hdd : (d.fighter.map Fighter.defence).getD 0 = f.defence := by
      rw [hf]; rfl
    have h1' : 0 < (a.fighter.map Fighter.power).getD 0 -
        (d.fighter.map Fighter.defence).getD 0 := by
      rw [hdd]; exact h1
    rw [hpos h1', hdd, take_damage_spec_pos d f _ _ hf h1 h2]
  · intro h
    simp only [Object.attack]
    rw [if_neg (not_lt.mpr h)]

/-- C2 witness inputs: the specification's scenario (attacker power 5,
defender defence 2 and hp 10). -/
def c2_w_attacker : Object :=
  { Object.new 0 0 '@' "attacker" Color.white false with
      fighter := some { max_hp := 30, hp := 30, defence := 0, power := 5,
                        on_death := DeathCallback.Player } }

def c2_w_defender : Object :=
  { Object.new 0 1 'd' "defender" Color.white false with
      fighter := some { max_hp := 10, hp := 10, defence := 2, power := 0,
                        on_death := DeathCallback.Monster } }

theorem claim_C2_witness :
    c2_w_attacker.attack c2_w_defender [] =
      ({ c2_w_defender with
          fighter := some { max_hp := 10, hp := 7, defence := 2, power := 0,
                            on_death := DeathCallback.Monster } },
       [("attacker attacks defender for 3 hit points!", Color.white)]) := by
  have h := (claim_C2_attack c2_w_attacker c2_w_defender []).2.1
    { max_hp := 10, hp := 10, defence := 2, power := 0, on_death := DeathCallback.Monster }
    rfl (by decide) (by decide)
  exact h.trans (by decide)

/-- C6 witness inputs. -/
def c6_map : Map := fun x y => if x = 1 ∧ y = 1 then Tile.empty else Tile.wall

def c6_player : Object :=
  { Object.new 1 1 '@' "player" Color.white false with alive := true }

/-- **C6**: `is_traversable` is false exactly when the tile is
non-traversable or some blocking object occupies that exact cell; and
`move_by` moves the object to the target cell when it is traversable and
otherwise leaves the store unchanged (and it takes no message log at
all, so a blocked move reports nothing). -/
theorem claim_C6_occupancy (x y : Int) (map : Map) (objects : List Object)
    (_hx : 0 ≤ x ∧ x < MAP_WIDTH) (_hy : 0 ≤ y ∧ y < MAP_HEIGHT) :
    (is_traversable x y map objects = false ↔
      (map x y).traversable = false ∨
        ∃ o ∈ objects, o.traversable = false ∧ o.pos = (x, y)) ∧
    (∀ (id : Nat) (dx dy : Int), id < objects.length →
      (is_traversable ((objects.getD id default).x + dx)
          ((objects.getD id default).y + dy) map objects = true →
        move_by id dx dy map objects =
          objects.set id ((objects.getD id default).set_pos
            ((objects.getD id default).x + dx) ((objects.getD id default).y + dy))) ∧
      (is_traversable ((objects.getD id default).x + dx)
          ((objects.getD id default).y + dy) map objects = false →
        move_by id dx dy map objects = objects)) := by
  constructor
  · by_cases ht : (map x y).traversable
    · simp [is_traversable, ht, List.any_eq_true]
    · simp [is_traversable, ht]
  · intro id dx dy _hid
    constructor
    · intro htrav
      simp only [List.getD_eq_getElem?_getD] at htrav
      simp [move_by, Object.pos, htrav]
    · intro hblk
      simp only [List.getD_eq_getElem?_getD] at hblk
      simp [move_by, Object.pos, hblk]

theorem claim_C6_witness :
    is_traversable 1 1 c6_map [c6_player] = false ∧
    move_by 0 0 (-1) c6_map [c6_player] = [c6_player] := by
  have h := claim_C6_occupancy 1 1 c6_map [c6_player] (by decide) (by decide)
  refine ⟨h.1.mpr (Or.inr ⟨c6_player, by simp, by decide, by decide⟩), ?_⟩
  exact (h.2 0 0 (-1) (by decide)).2 (by decide)

/-- The movement deltas of `handle_keys`' eight movement arms. -/
def moveDelta (c : Char) : Option (Int × Int) :=
  if c = 'k' then some (0, -1)
  else if c = 'j' then some (0, 1)
  else if c = 'h' then some (-1, 0)
  else if c = 'l' then some (1, 0)
  else if c = 'y' then some (-1, -1)
  else if c = 'u' then some (1, -1)
  else if c = 'b' then some (-1, 1)
  else if c = 'n' then some (1, 1)
  else none

lemma move_by_or_attack_blocked (id : Nat) (dx dy : Int) (map : Map)
    (objects : List Object) (msgs : Messages)
    (hnof : objects.findIdx? (fun o => o.fighter.isSome &&
      o.pos == ((objects.getD id default).x + dx, (objects.getD id default).y + dy)) = none)
    (hblk : is_traversable ((objects.getD id default).x + dx)
      ((objects.getD id default).y + dy) map objects = false) :
    move_by_or_attack id dx dy map objects msgs = (objects, msgs) := by
  simp only [List.getD_eq_getElem?_getD, Object.pos] at hnof hblk
  simp [move_by_or_attack, Object.pos, hnof, move_by, hblk]

lemma handle_keys_move (key : Key) (map : Map) (objects : List Object)
    (msgs : Messages) (dx dy : Int)
    (halive : (objects.getD PLAYER_ID default).alive = true)
    (hkey : moveDelta key.printable = some (dx, dy)) :
    handle_keys key map objects msgs =
      (PlayerAction.TookTurn, move_by_or_attack PLAYER_ID dx dy map objects msgs) := by
  unfold moveDelta at hkey
  unfold handle_keys
  simp only [halive, Bool.true_and, beq_iff_eq]
  by_cases hk : key.printable = 'k'
  · rw [if_pos hk] at hkey ⊢
    obtain ⟨rfl, rfl⟩ : (0 : Int) = dx ∧ (-1 : Int) = dy := by
      simpa [Prod.ext_iff] using hkey
    rfl
  rw [if_neg hk] at hkey ⊢
  by_cases hj : key.printable = 'j'
  · rw [if_pos hj] at hkey ⊢
    obtain ⟨rfl, rfl⟩ : (0 : Int) = dx ∧ (1 : Int) = dy := by
      simpa [Prod.ext_iff] using hkey
    rfl
  rw [if_neg hj] at hkey ⊢
  by_cases hh : key.printable = 'h'
  · rw [if_pos hh] at hkey ⊢
    obtain ⟨rfl, rfl⟩ : (-1 : Int) = dx ∧ (0 : Int) = dy := by
      simpa [Prod.ext_iff] using hkey
    rfl
  rw [if_neg hh] at hkey ⊢
  by_cases hl : key.printable = 'l'
  · rw [if_pos hl] at hkey ⊢
    obtain ⟨rfl, rfl⟩ : (1 : Int) = dx ∧ (0 : Int) = dy := by
      simpa [Prod.ext_iff] using hkey
    rfl
  rw [if_neg hl] at hkey ⊢
  by_cases hy : key.printable = 'y'
  · rw [if_pos hy] at hkey ⊢
    obtain ⟨rfl, rfl⟩ : (-1 : Int) = dx ∧ (-1 : Int) = dy := by
      simpa [Prod.ext_iff] using hkey
    rfl
  rw [if_neg hy] at hkey ⊢
  by_cases hu : key.printable = 'u'
  · rw [if_pos hu] at hkey ⊢
    obtain ⟨rfl, rfl⟩ : (1 : Int) = dx ∧ (-1 : Int) = dy := by
      simpa [Prod.ext_iff] using hkey
    rfl
  rw [if_neg hu] at hkey ⊢
  by_cases hb : key.printable = 'b'
  · rw [if_pos hb] at hkey ⊢
    obtain ⟨rfl, rfl⟩ : (-1 : Int) = dx ∧ (1 : Int) = dy := by
      simpa [Prod.ext_iff] using hkey
    rfl
  rw [if_neg hb] at hkey ⊢
  by_cases hn : key.printable = 'n'
  · rw [if_pos hn] at hkey ⊢
    obtain ⟨rfl, rfl⟩ : (1 : Int) = dx ∧ (1 : Int) = dy := by
      simpa [Prod.ext_iff] using hkey
    rfl
  rw [if_neg hn] at hkey
  exact absurd hkey (by simp)

/-- C10 counterexample inputs: a lone living player on a one-tile island. -/
def c10_map : Map := fun x y => if x = 1 ∧ y = 1 then Tile.empty else Tile.wall

def c10_player : Object :=
  { Object.new 1 1 '@' "player" Color.white false with
      alive := true,
      fighter := some { max_hp := 30, hp := 30, defence := 2, power := 5,
                        on_death := DeathCallback.Player } }

/-- **C10, counterexample**: moving the living player into the wall at
(1,0) is blocked (the cell is non-traversable), leaves the player and log
unchanged — yet `handle_keys` still resolves the intent as `TookTurn`,
contradicting the claim that a blocked movement does not consume a turn. -/
theorem claim_C10_counterexample :
    is_traversable 1 0 c10_map [c10_player] = false ∧
    handle_keys { printable := 'k', code := KeyCode.OtherCode, alt := false }
        c10_map [c10_player] [] =
      (PlayerAction.TookTurn, [c10_player], []) := by
  refine ⟨by decide, by decide⟩

/-- **C10, amended**: when the living player moves into a target cell
that holds no fighter and is not traversable, the action is silently
discarded — no log entry is appended and the player's position is
unchanged — but the intent still resolves as `TookTurn` (the source's
`do_move_by` always returns `TookTurn`), so the tick proceeds exactly as
after any other key that is not `Exit` (and the AI loop of the main loop
runs unconditionally in either case, see C1). -/
theorem claim_C10_blocked_move (key : Key) (map : Map) (objects : List Object)
    (msgs : Messages) (dx dy : Int)
    (halive : (objects.getD PLAYER_ID default).alive = true)
    (hkey : moveDelta key.printable = some (dx, dy))
    (hnof : objects.findIdx? (fun o => o.fighter.isSome &&
      o.pos == ((objects.getD PLAYER_ID default).x + dx,
                (objects.getD PLAYER_ID default).y + dy)) = none)
    (hblk : is_traversable ((objects.getD PLAYER_ID default).x + dx)
      ((objects.getD PLAYER_ID default).y + dy) map objects = false) :
    handle_keys key map objects msgs = (PlayerAction.TookTurn, objects, msgs) := by
  rw [handle_keys_move key map objects msgs dx dy halive hkey,
    move_by_or_attack_blocked PLAYER_ID dx dy map objects msgs hnof hblk]

theorem claim_C10_witness :
    handle_keys { printable := 'j', code := KeyCode.OtherCode, alt := false }
        c10_map [c10_player] [] =
      (PlayerAction.TookTurn, [c10_player], []) :=
  claim_C10_blocked_move { printable := 'j', code := KeyCode.OtherCode, alt := false }
    c10_map [c10_player] [] 0 1 (by decide) (by decide) (by decide) (by decide)

/-- C1 counterexample inputs: a living player with an adjacent orc in
full view, and a key that resolves to `DidntTakeTurn`. -/
def c1_map : Map := fun _ _ => Tile.empty

def c1_fov : Int → Int → Bool := fun _ _ => true

def c1_player : Object :=
  { Object.new 1 1 '@' "player" Color.white false with
      alive := true,
      fighter := some { max_hp := 30, hp := 30, defence := 2, power := 5,
                        on_death := DeathCallback.Player } }

def c1_orc : Object := orc_at 1 2

/-- **C1, counterexample**: on an unrecognized key the player action is
`DidntTakeTurn`, yet the tick still runs the AI iteration: the adjacent
orc attacks and the player loses a hit point — so "the AI turn iteration
runs if and only if the player's intent resolved to TookTurn" is false
of the code. -/
theorem claim_C1_counterexample :
    (handle_keys { printable := ' ', code := KeyCode.OtherCode, alt := false }
        c1_map [c1_player, c1_orc] []).1 = PlayerAction.DidntTakeTurn ∧
    game_tick { printable := ' ', code := KeyCode.OtherCode, alt := false }
        c1_map [c1_player, c1_orc] [] c1_fov =
      TickResult.next
        [{ c1_player with
            fighter := some { max_hp := 30, hp := 29, defence := 2, power := 5,
                              on_death := DeathCallback.Player } },
         c1_orc]
        [("orc attacks player for 1 hit points!", Color.white)] := by
  refine ⟨by decide, by decide⟩

/-- **C1, amended**: `Exit` terminates the session loop immediately
without running any AI turns; on every other player action — `TookTurn`
and `DidntTakeTurn` alike — the tick runs the AI iteration
(`run_ai_turns`, which invokes `ai_take_turn` for every store index in
ascending order whose entity currently has an AI marker); the iteration
is not gated on `TookTurn`. -/
theorem claim_C1_ai_gating (key : Key) (map : Map) (objects : List Object)
    (msgs : Messages) (fov : Int → Int → Bool) :
    ((handle_keys key map objects msgs).1 = PlayerAction.Exit →
      game_tick key map objects msgs fov = TickResult.exit) ∧
    ((handle_keys key map objects msgs).1 ≠ PlayerAction.Exit →
      game_tick key map objects msgs fov =
        TickResult.next
          (run_ai_turns map (handle_keys key map objects msgs).2.1
            (if ((handle_keys key map objects msgs).2.1.getD PLAYER_ID default).alive ∧
                (handle_keys key map objects msgs).1 ≠ PlayerAction.DidntTakeTurn then
              growl_block (handle_keys key map objects msgs).2.1
                (handle_keys key map objects msgs).2.2
            else
              (handle_keys key map objects msgs).2.2) fov).1
          (run_ai_turns map (handle_keys key map objects msgs).2.1
            (if ((handle_keys key map objects msgs).2.1.getD PLAYER_ID default).alive ∧
                (handle_keys key map objects msgs).1 ≠ PlayerAction.DidntTakeTurn then
              growl_block (handle_keys key map objects msgs).2.1
                (handle_keys key map objects msgs).2.2
            else
              (handle_keys key map objects msgs).2.2) fov).2) := by
  rcases hhk : handle_keys key map objects msgs with ⟨pa, objs1, msgs1⟩
  constructor
  · intro hexit
    simp only at hexit
    delta game_tick
    rw [hhk]
    simp [hexit]
  · intro hne
    simp only at hne
    delta game_tick
    rw [hhk]
    simp only [if_neg hne]
    simp [Bool.and_eq_true, decide_eq_true_eq]

theorem claim_C1_witness :
    game_tick { printable := ' ', code := KeyCode.Escape, alt := false }
        c1_map [c1_player, c1_orc] [] c1_fov = TickResult.exit :=
  (claim_C1_ai_gating { printable := ' ', code := KeyCode.Escape, alt := false }
    c1_map [c1_player, c1_orc] [] c1_fov).1 (by decide)

/-- **C8**: for a monster with an active AI marker, `ai_take_turn` does
nothing when the monster's tile is not visible; when visible and the
Euclidean distance to the player is at least 2.0 (squared distance ≥ 4,
see `Object.distance_sq`) it moves one step toward the player obtained
by normalising the displacement vector and rounding each component
independently — each rounded component lies in {-1, 0, 1}; when visible
and closer than 2.0 it attacks the player instead of moving. -/
theorem claim_C8_ai_policy (mid : Nat) (map : Map) (objects : List Object)
    (msgs : Messages) (fov : Int → Int → Bool)
    (_hmid : mid < objects.length)
    (_hai : (objects.getD mid default).ai.isSome = true)
    (_hne : mid ≠ PLAYER_ID) :
    (fov (objects.getD mid default).x (objects.getD mid default).y = false →
      ai_take_turn mid map objects msgs fov = (objects, msgs)) ∧
    (fov (objects.getD mid default).x (objects.getD mid default).y = true →
      4 ≤ (objects.getD mid default).distance_sq (objects.getD PLAYER_ID default) →
      ai_take_turn mid map objects msgs fov =
        (move_towards mid (objects.getD PLAYER_ID default).x
          (objects.getD PLAYER_ID default).y map objects, msgs) ∧
      (∀ d n : Int, d * d ≤ n →
        round_normalized d n = -1 ∨ round_normalized d n = 0 ∨
          round_normalized d n = 1)) ∧
    (fov (objects.getD mid default).x (objects.getD mid default).y = true →
      (objects.getD mid default).distance_sq (objects.getD PLAYER_ID default) < 4 →
      ai_take_turn mid map objects msgs fov =
        (objects.set PLAYER_ID
          ((objects.getD mid default).attack (objects.getD PLAYER_ID default) msgs).1,
         ((objects.getD mid default).attack (objects.getD PLAYER_ID default) msgs).2)) := by
  refine ⟨?_, ?_, ?_⟩
  · intro hfov
    simp only [List.getD_eq_getElem?_getD] at hfov
    simp [ai_take_turn, hfov]
  · intro hfov hdist
    simp only [List.getD_eq_getElem?_getD] at hfov hdist
    constructor
    · simp [ai_take_turn, hfov, hdist]
    · intro d n hdn
      unfold round_normalized
      by_cases hn0 : n = 0
      · simp [hn0]
      · rw [if_neg hn0]
        by_cases h4 : n ≤ 4 * d * d
        · rw [if_pos h4]
          rcases lt_trichotomy d 0 with hd | hd | hd
          · left; exact Int.sign_eq_neg_one_of_neg hd
          · right; left; rw [hd]; rfl
          · right; right; exact Int.sign_eq_one_of_pos hd
        · rw [if_neg h4]
          right; left; rfl
  · intro hfov hdist
    simp only [List.getD_eq_getElem?_getD] at hfov hdist
    simp [ai_take_turn, hfov, not_le.mpr hdist]

/-- C8 witness inputs: an orc four tiles from the player in full view. -/
def c8_map : Map := fun _ _ => Tile.empty

def c8_fov : Int → Int → Bool := fun _ _ => true

def c8_player : Object :=
  { Object.new 1 1 '@' "player" Color.white false with
      alive := true,
      fighter := some { max_hp := 30, hp := 30, defence := 2, power := 5,
                        on_death := DeathCallback.Player } }

def c8_orc : Object := orc_at 1 5

theorem claim_C8_witness :
    ai_take_turn 1 c8_map [c8_player, c8_orc] [] c8_fov =
      (move_towards 1 c8_player.x c8_player.y c8_map [c8_player, c8_orc], []) :=
  ((claim_C8_ai_policy 1 c8_map [c8_player, c8_orc] [] c8_fov (by decide) (by decide)
    (by decide)).2.1 (by decide) (by decide)).1

/-! ## Dungeon-generation lemmas (C5) -/

lemma mem_intRange {lo hi x : Int} : x ∈ intRange lo hi ↔ lo ≤ x ∧ x < hi := by
  unfold intRange
  constructor
  · intro hx
    obtain ⟨i, hir, heq⟩ := List.mem_map.mp hx
    have hlt : i < (hi - lo).toNat := List.mem_range.mp hir
    subst heq
    omega
  · rintro ⟨h1, h2⟩
    exact List.mem_map.mpr ⟨(x - lo).toNat, List.mem_range.mpr (by omega), by omega⟩

lemma mapSet_same (m : Map) (x y : Int) (t : Tile) : mapSet m x y t x y = t := by
  simp [mapSet]

lemma mapSet_carve_or_eq (m : Map) (a b x y : Int) :
    mapSet m a b Tile.empty x y = m x y ∨ mapSet m a b Tile.empty x y = Tile.empty := by
  unfold mapSet
  split
  · right; rfl
  · left; rfl

lemma foldl_carve_or_eq {α : Type} (f : Map → α → Map)
    (hf : ∀ m a x y, f m a x y = m x y ∨ f m a x y = Tile.empty) :
    ∀ (l : List α) (m : Map) (x y : Int),
      l.foldl f m x y = m x y ∨ l.foldl f m x y = Tile.empty := by
  intro l
  induction l with
  | nil => intro m x y; left; rfl
  | cons a l ih =>
    intro m x y
    rw [List.foldl_cons]
    rcases ih (f m a) x y with h | h
    · rcases hf m a x y with h2 | h2
      · left; rw [h, h2]
      · right; rw [h, h2]
    · right; exact h

lemma foldl_carve_establish {α : Type} (f : Map → α → Map)
    (hf : ∀ m a x y, f m a x y = m x y ∨ f m a x y = Tile.empty)
    (x y : Int) (a : α) (hset : ∀ m, f m a x y = Tile.empty) :
    ∀ (l : List α) (m : Map), a ∈ l → l.foldl f m x y = Tile.empty := by
  intro l
  induction l with
  | nil => intro m h; cases h
  | cons b l ih =>
    intro m hmem
    rw [List.foldl_cons]
    rcases List.mem_cons.mp hmem with heq | hmem2
    · subst heq
      rcases foldl_carve_or_eq f hf l (f m a) x y with h | h
      · rw [h, hset]
      · exact h
    · exact ih (f m b) hmem2

lemma create_room_or_eq (rect : Rect) (m : Map) (x y : Int) :
    create_room rect m x y = m x y ∨ create_room rect m x y = Tile.empty := by
  unfold create_room
  exact foldl_carve_or_eq _
    (fun m a x y => foldl_carve_or_eq _
      (fun m b x y => mapSet_carve_or_eq m a b x y) _ m x y) _ m x y

lemma create_room_preserve (rect : Rect) (m : Map) (x y : Int)
    (h : m x y = Tile.empty) : create_room rect m x y = Tile.empty := by
  rcases create_room_or_eq rect m x y with h2 | h2
  · rw [h2, h]
  · exact h2

lemma create_room_interior (rect : Rect) (m : Map) (x y : Int)
    (hx1 : rect.x1 + 1 ≤ x) (hx2 : x < rect.x2)
    (hy1 : rect.y1 + 1 ≤ y) (hy2 : y < rect.y2) :
    create_room rect m x y = Tile.empty := by
  unfold create_room
  refine foldl_carve_establish _
    (fun m a x y => foldl_carve_or_eq _
      (fun m b x y => mapSet_carve_or_eq m a b x y) _ m x y)
    x y x ?_ _ m (mem_intRange.mpr ⟨hx1, hx2⟩)
  intro m2
  exact foldl_carve_establish _
    (fun m b x2 y2 => mapSet_carve_or_eq m x b x2 y2)
    x y y (fun m3 => mapSet_same m3 x y Tile.empty) _ m2 (mem_intRange.mpr ⟨hy1, hy2⟩)

lemma create_h_tunnel_or_eq (x1 x2 y0 : Int) (m : Map) (x y : Int) :
    create_h_tunnel x1 x2 y0 m x y = m x y ∨ create_h_tunnel x1 x2 y0 m x y = Tile.empty := by
  unfold create_h_tunnel
  exact foldl_carve_or_eq _ (fun m a x y => mapSet_carve_or_eq m a y0 x y) _ m x y

lemma create_h_tunnel_preserve (x1 x2 y0 : Int) (m : Map) (x y : Int)
    (h : m x y = Tile.empty) : create_h_tunnel x1 x2 y0 m x y = Tile.empty := by
  rcases create_h_tunnel_or_eq x1 x2 y0 m x y with h2 | h2
  · rw [h2, h]
  · exact h2

lemma create_v_tunnel_or_eq (y1 y2 x0 : Int) (m : Map) (x y : Int) :
    create_v_tunnel y1 y2 x0 m x y = m x y ∨ create_v_tunnel y1 y2 x0 m x y = Tile.empty := by
  unfold create_v_tunnel
  exact foldl_carve_or_eq _ (fun m a x y => mapSet_carve_or_eq m x0 a x y) _ m x y

lemma create_v_tunnel_preserve (y1 y2 x0 : Int) (m : Map) (x y : Int)
    (h : m x y = Tile.empty) : create_v_tunnel y1 y2 x0 m x y = Tile.empty := by
  rcases create_v_tunnel_or_eq y1 y2 x0 m x y with h2 | h2
  · rw [h2, h]
  · exact h2

/-- The interior of a room (border excluded) is fully carved to empty. -/
def interior_carved (m : Map) (r : Rect) : Prop :=
  ∀ x y : Int, r.x1 + 1 ≤ x → x < r.x2 → r.y1 + 1 ≤ y → y < r.y2 → m x y = Tile.empty

/-- Every accepted room has nonnegative origin and sides of length at
least 2, which guarantees its center lies in its interior. -/
def room_dims_ok (r : Rect) : Prop :=
  0 ≤ r.x1 ∧ r.x1 + 2 ≤ r.x2 ∧ 0 ≤ r.y1 ∧ r.y1 + 2 ≤ r.y2

/-- The loop invariant of `make_map`'s room loop. -/
structure GenInv (st : GenState) : Prop where
  pairwise : st.rooms.Pairwise (fun a b => a.intersects_with b = false)
  carved : ∀ r ∈ st.rooms, interior_carved st.map r
  dims : ∀ r ∈ st.rooms, room_dims_ok r
  start : ∀ first rest, st.rooms = first :: rest → st.starting_position = first.center

lemma intersects_with_eq_true_iff (a b : Rect) :
    a.intersects_with b = true ↔
      (b.x1 ≤ a.x2 ∧ a.x1 ≤ b.x2) ∧ (b.y1 ≤ a.y2 ∧ a.y1 ≤ b.y2) := by
  unfold Rect.intersects_with
  simp [ge_iff_le]

lemma intersects_symm_false {a b : Rect} (h : a.intersects_with b = false) :
    b.intersects_with a = false := by
  cases hb : b.intersects_with a with
  | false => rfl
  | true =>
    rw [intersects_with_eq_true_iff] at hb
    have h2 : a.intersects_with b = true := (intersects_with_eq_true_iff a b).mpr (by tauto)
    rw [h2] at h
    exact Bool.noConfusion h

lemma make_map_step_invalid_spec (st : GenState) (c : RoomCand)
    (hinv : (st.rooms.any
      (fun other_room => (Rect.new c.x c.y c.w c.h).intersects_with other_room)) = true) :
    make_map_step st c = st := by
  unfold make_map_step
  simp [hinv]

lemma make_map_step_first_spec (st : GenState) (c : RoomCand)
    (hinv : (st.rooms.any
      (fun other_room => (Rect.new c.x c.y c.w c.h).intersects_with other_room)) = false)
    (hemp : st.rooms.isEmpty = true) :
    make_map_step st c =
      { st with
          map := create_room (Rect.new c.x c.y c.w c.h) st.map,
          starting_position := (Rect.new c.x c.y c.w c.h).center,
          rooms := st.rooms ++ [Rect.new c.x c.y c.w c.h] } := by
  unfold make_map_step
  simp [hinv, hemp, Rect.center]

lemma make_map_step_later_spec (st : GenState) (c : RoomCand)
    (hinv : (st.rooms.any
      (fun other_room => (Rect.new c.x c.y c.w c.h).intersects_with other_room)) = false)
    (hemp : st.rooms.isEmpty = false) :
    (make_map_step st c).rooms = st.rooms ++ [Rect.new c.x c.y c.w c.h] ∧
    (make_map_step st c).starting_position = st.starting_position ∧
    (∀ x y : Int, st.map x y = Tile.empty → (make_map_step st c).map x y = Tile.empty) ∧
    (∀ x y : Int,
      (Rect.new c.x c.y c.w c.h).x1 + 1 ≤ x → x < (Rect.new c.x c.y c.w c.h).x2 →
      (Rect.new c.x c.y c.w c.h).y1 + 1 ≤ y → y < (Rect.new c.x c.y c.w c.h).y2 →
      (make_map_step st c).map x y = Tile.empty) := by
  unfold make_map_step
  simp only [hinv, Bool.false_eq_true, if_false, hemp, Rect.center]
  refine ⟨by simp, by simp, ?_, ?_⟩
  · intro x y hxy
    by_cases hcoin : c.coin
    · simp only [hcoin, if_true]
      exact create_v_tunnel_preserve _ _ _ _ _ _
        (create_h_tunnel_preserve _ _ _ _ _ _ (create_room_preserve _ _ _ _ hxy))
    · simp only [hcoin, if_false]
      exact create_h_tunnel_preserve _ _ _ _ _ _
        (create_v_tunnel_preserve _ _ _ _ _ _ (create_room_preserve _ _ _ _ hxy))
  · intro x y hx1 hx2 hy1 hy2
    by_cases hcoin : c.coin
    · simp only [hcoin, if_true]
      exact create_v_tunnel_preserve _ _ _ _ _ _
        (create_h_tunnel_preserve _ _ _ _ _ _
          (create_room_interior _ _ x y hx1 hx2 hy1 hy2))
    · simp only [hcoin, if_false]
      exact create_h_tunnel_preserve _ _ _ _ _ _
        (create_v_tunnel_preserve _ _ _ _ _ _
          (create_room_interior _ _ x y hx1 hx2 hy1 hy2))

lemma make_map_step_inv (st : GenState) (c : RoomCand) (hc : c.valid) (h : GenInv st) :
    GenInv (make_map_step st c) := by
  have hm1 : ROOM_MIN_SIZE = (6 : Int) := rfl
  obtain ⟨hc1, hc2, hc3, hc4, hc5, hc6, hc7, hc8⟩ := hc
  cases hinv : st.rooms.any
      (fun other_room => (Rect.new c.x c.y c.w c.h).intersects_with other_room) with
  | true =>
    rw [make_map_step_invalid_spec st c hinv]
    exact h
  | false =>
    have hno : ∀ r ∈ st.rooms, (Rect.new c.x c.y c.w c.h).intersects_with r = false := by
      intro r hr
      have h2 := List.any_eq_false.mp hinv r hr
      simpa using h2
    have hdims : room_dims_ok (Rect.new c.x c.y c.w c.h) := by
      unfold room_dims_ok Rect.new
      dsimp only
      refine ⟨by omega, by omega, by omega, by omega⟩
    cases hemp : st.rooms.isEmpty with
    | true =>
      have hempty : st.rooms = [] := List.isEmpty_iff.mp hemp
      rw [make_map_step_first_spec st c hinv hemp]
      refine ⟨?_, ?_, ?_, ?_⟩
      · rw [hempty]
        simp
      · intro r hr
        rw [hempty] at hr
        simp only [List.nil_append, List.mem_singleton] at hr
        subst hr
        intro x y hx1 hx2 hy1 hy2
        exact create_room_interior _ _ x y hx1 hx2 hy1 hy2
      · intro r hr
        rw [hempty] at hr
        simp only [List.nil_append, List.mem_singleton] at hr
        subst hr
        exact hdims
      · intro first rest hfr
        rw [hempty] at hfr
        simp only [List.nil_append] at hfr
        have hfirst : first = Rect.new c.x c.y c.w c.h := by
          cases hfr
          rfl
        rw [hfirst]
    | false =>
      have hne : st.rooms ≠ [] := by
        intro hh
        rw [hh] at hemp
        exact Bool.noConfusion hemp
      obtain ⟨sp1, sp2, sp3, sp4⟩ := make_map_step_later_spec st c hinv hemp
      refine ⟨?_, ?_, ?_, ?_⟩
      · rw [sp1, List.pairwise_append]
        refine ⟨h.pairwise, by simp, ?_⟩
        intro a ha b hb
        simp only [List.mem_singleton] at hb
        subst hb
        exact intersects_symm_false (hno a ha)
      · intro r hr
        rw [sp1] at hr
        rcases List.mem_append.mp hr with hr2 | hr2
        · intro x y hx1 hx2 hy1 hy2
          exact sp3 x y (h.carved r hr2 x y hx1 hx2 hy1 hy2)
        · simp only [List.mem_singleton] at hr2
          subst hr2
          intro x y hx1 hx2 hy1 hy2
          exact sp4 x y hx1 hx2 hy1 hy2
      · intro r hr
        rw [sp1] at hr
        rcases List.mem_append.mp hr with hr2 | hr2
        · exact h.dims r hr2
        · simp only [List.mem_singleton] at hr2
          subst hr2
          exact hdims
      · intro first rest hfr
        rw [sp2]
        rw [sp1] at hfr
        obtain ⟨f, rest2, hfr2⟩ := List.exists_cons_of_ne_nil hne
        rw [hfr2, List.cons_append] at hfr
        have hf : f = first := (List.cons.injEq _ _ _ _).mp hfr |>.1
        rw [← hf]
        exact h.start f rest2 hfr2

lemma make_map_fold_inv (cands : List RoomCand) :
    ∀ st : GenState, (∀ c ∈ cands, c.valid) → GenInv st →
      GenInv (cands.foldl make_map_step st) := by
  induction cands with
  | nil =>
    intro st _ h
    exact h
  | cons c cands ih =>
    intro st hv h
    rw [List.foldl_cons]
    exact ih _ (fun c2 h2 => hv c2 (List.mem_cons_of_mem c h2))
      (make_map_step_inv st c (hv c (List.mem_cons_self c cands)) h)

lemma make_map_step_rooms_cases (st : GenState) (c : RoomCand) :
    (make_map_step st c).rooms = st.rooms ∨
      (make_map_step st c).rooms = st.rooms ++ [Rect.new c.x c.y c.w c.h] := by
  cases hinv : st.rooms.any
      (fun other_room => (Rect.new c.x c.y c.w c.h).intersects_with other_room) with
  | true =>
    left
    rw [make_map_step_invalid_spec st c hinv]
  | false =>
    cases hemp : st.rooms.isEmpty with
    | true =>
      right
      rw [make_map_step_first_spec st c hinv hemp]
    | false =>
      right
      exact (make_map_step_later_spec st c hinv hemp).1

lemma foldl_rooms_ne_nil (cands : List RoomCand) :
    ∀ st : GenState, st.rooms ≠ [] → (cands.foldl make_map_step st).rooms ≠ [] := by
  induction cands with
  | nil =>
    intro st h
    exact h
  | cons c cands ih =>
    intro st h
    rw [List.foldl_cons]
    refine ih _ ?_
    rcases make_map_step_rooms_cases st c with h2 | h2 <;> rw [h2]
    · exact h
    · simp

lemma make_map_rooms_ne_nil (cands : List RoomCand) (h : cands ≠ []) :
    (make_map cands).rooms ≠ [] := by
  unfold make_map
  rcases cands with _ | ⟨c, rest⟩
  · exact absurd rfl h
  · rw [List.foldl_cons]
    refine foldl_rooms_ne_nil rest _ ?_
    cases hinv : (GenState.rooms
        { map := fun _ _ => Tile.wall, starting_position := (0, 0), rooms := [],
          objects := [] }).any
        (fun other_room => (Rect.new c.x c.y c.w c.h).intersects_with other_room) with
    | true => exact Bool.noConfusion hinv
    | false =>
      rw [make_map_step_first_spec _ c hinv rfl]
      simp

lemma center_in_interior (r : Rect) (hd : room_dims_ok r) :
    r.x1 + 1 ≤ r.center.1 ∧ r.center.1 < r.x2 ∧
    r.y1 + 1 ≤ r.center.2 ∧ r.center.2 < r.y2 := by
  obtain ⟨h1, h2, h3, h4⟩ := hd
  unfold Rect.center
  refine ⟨?_, ?_, ?_, ?_⟩ <;> simp <;> omega

/-- **C5**: for every RNG stream (each of the `MAX_ROOMS` sampled
candidates in the ranges `gen_range` guarantees): no two accepted rooms
satisfy the overlap predicate — which is inclusive, so two rectangles
sharing only a boundary edge do intersect (last conjunct) and the later
candidate is rejected; every accepted room's interior tiles are
traversable and transparent; and the start position is the first
accepted room's center and lies on a traversable tile. -/
theorem claim_C5_generation_valid (cands : List RoomCand)
    (hv : ∀ c ∈ cands, c.valid) (hlen : cands.length = MAX_ROOMS) :
    ((make_map cands).rooms.Pairwise (fun a b => a.intersects_with b = false)) ∧
    (∀ r ∈ (make_map cands).rooms, ∀ x y : Int,
      r.x1 + 1 ≤ x → x < r.x2 → r.y1 + 1 ≤ y → y < r.y2 →
      ((make_map cands).map x y).traversable = true ∧
      ((make_map cands).map x y).transparent = true) ∧
    (∃ first rest, (make_map cands).rooms = first :: rest ∧
      (make_map cands).starting_position = first.center ∧
      ((make_map cands).map (make_map cands).starting_position.1
        (make_map cands).starting_position.2).traversable = true) ∧
    (∀ a b : Rect, a.x1 ≤ a.x2 → b.x1 ≤ b.x2 → a.x2 = b.x1 →
      b.y1 ≤ a.y2 → a.y1 ≤ b.y2 → a.intersects_with b = true) := by
  have hinv0 :
      GenInv { map := fun _ _ => Tile.wall, starting_position := (0, 0), rooms := [], objects := [] } := by
    refine ⟨by simp, by simp, by simp, ?_⟩
    intro first rest hfr
    exact absurd hfr (by simp)
  have hinv : GenInv (make_map cands) := make_map_fold_inv cands _ hv hinv0
  have hne : (make_map cands).rooms ≠ [] := by
    refine make_map_rooms_ne_nil cands ?_
    intro hnil
    rw [hnil] at hlen
    exact absurd hlen.symm (by simp [MAX_ROOMS])
  refine ⟨hinv.pairwise, ?_, ?_, ?_⟩
  · intro r hr x y hx1 hx2 hy1 hy2
    rw [hinv.carved r hr x y hx1 hx2 hy1 hy2]
    exact ⟨rfl, rfl⟩
  · obtain ⟨first, rest, hfr⟩ := List.exists_cons_of_ne_nil hne
    have hstart := hinv.start first rest hfr
    have hdims := hinv.dims first (by rw [hfr]; exact List.mem_cons_self first rest)
    obtain ⟨hcx1, hcx2, hcy1, hcy2⟩ := center_in_interior first hdims
    refine ⟨first, rest, hfr, hstart, ?_⟩
    rw [hstart]
    rw [hinv.carved first (by rw [hfr]; exact List.mem_cons_self first rest)
      first.center.1 first.center.2 hcx1 hcx2 hcy1 hcy2]
    rfl
  · intro a b h1 h2 h3 h4 h5
    rw [intersects_with_eq_true_iff]
    refine ⟨⟨by omega, by omega⟩, ⟨by omega, by omega⟩⟩

/-- C5 witness input: thirty identical valid candidates (the first is
accepted, every later one overlaps it and is rejected). -/
def c5_cands : List RoomCand :=
  List.replicate 30 { w := 6, h := 6, x := 0, y := 0, coin := false, monsters := [] }

theorem claim_C5_witness :
    (∀ c ∈ c5_cands, c.valid) ∧
    (∃ first rest, (make_map c5_cands).rooms = first :: rest ∧
      (make_map c5_cands).starting_position = first.center ∧
      ((make_map c5_cands).map (make_map c5_cands).starting_position.1
        (make_map c5_cands).starting_position.2).traversable = true) := by
  have hv : ∀ c ∈ c5_cands, c.valid := by decide
  exact ⟨hv, (claim_C5_generation_valid c5_cands hv (by decide)).2.2.1⟩
